import Mathlib

/-
  Verification of the retrieval core of the rag-chatbot-groq repository.

  The repository contains two pipeline variants:
  * `vector_store.py` (ChromaDB-backed) used by `rag_chatbot.py`, and
  * `vector_store_deploy.py` (FAISS-backed, in-memory with pickle snapshots).

  The definitions below are shallow embeddings of the repository's own Python
  functions.  External library calls (the HuggingFace embedding model, the
  FAISS/Chroma nearest-neighbour search, the langchain text splitter) are not
  code of this repository; where a claim depends on them they are modelled
  from the specification, and each such definition says so in its doc comment.
-/

/-- Default chunk size from `config.py` (`CHUNK_SIZE = 500` when the
environment variable is absent). -/
def CHUNK_SIZE : Nat := 500

/-- Default chunk overlap from `config.py` (`CHUNK_OVERLAP = 50`). -/
def CHUNK_OVERLAP : Nat := 50

/-- Collection name from `config.py`. -/
def COLLECTION_NAME : String := "documents"

/-- Embedding vectors, modelled with exact rationals in place of floats. -/
abbrev Vec := List ℚ

/-- Id assignment of `vector_store.py` `VectorStore.add_documents` line 46:
`ids = [f"doc_{i}" for i in range(len(texts))]`.  The ids depend only on the
length of the `texts` argument of the current call, not on the collection's
existing contents. -/
def assignIds (n : Nat) : List String :=
  (List.range n).map fun i => "doc_" ++ toString i

/-- The ids a single `add_documents(texts, metadata)` call hands to
`collection.add`. -/
def addDocumentsIds (texts : List String) : List String :=
  assignIds texts.length

/-- A langchain `Document`: page content plus the `source` metadata entry
(the only metadata key the repository's stats code reads). -/
structure Document where
  page_content : String
  source : Option String
deriving DecidableEq, Repr

/-- State of the FAISS-backed `VectorStore` of `vector_store_deploy.py`:
`self.documents` (the document store) and `self.vectorstore` (the FAISS
index, `None` until first successful add; modelled by its list of stored
vectors). -/
structure DeployState where
  documents : List Document
  vectorstore : Option (List Vec)
deriving DecidableEq, Repr

/-- A fresh store: `self.documents = []`, `self.vectorstore = None`. -/
def emptyDeployState : DeployState := ⟨[], none⟩

/-- The result dictionary returned by `add_documents` / `clear_all` in
`vector_store_deploy.py`: a `success` flag, a `message`, and (on successful
adds) a `chunks_created` count. -/
structure AddDocsResult where
  success : Bool
  message : String
  chunks_created : Option Nat
deriving DecidableEq, Repr

/-- `Index.size()`: number of vectors held by the FAISS index (`0` when the
index has not been created). -/
def indexSize : Option (List Vec) → Nat
  | none => 0
  | some idx => idx.length

/-- `VectorStore.add_documents` of `vector_store_deploy.py` (lines 57-92),
parameterised by the external embedding step `e` (the `FAISS.from_texts` /
`add_texts` embedding call), which may fail.  Faithful to the source order:
the documents list is extended *before* the index is (re)built, and on an
embedding failure the method returns a failure result while leaving the
extended documents list in place. -/
def addDocuments (e : List String → Except String (List Vec))
    (s : DeployState) (docs : List Document) : DeployState × AddDocsResult :=
  if docs.isEmpty then
    (s, ⟨false, "No documents to add", none⟩)
  else
    let s1 : DeployState := ⟨s.documents ++ docs, s.vectorstore⟩
    match s.vectorstore with
    | none =>
      match e (s1.documents.map Document.page_content) with
      | Except.ok vs =>
        (⟨s1.documents, some vs⟩,
         ⟨true, "Successfully added " ++ toString docs.length ++ " documents",
          some docs.length⟩)
      | Except.error msg =>
        (s1, ⟨false, "Error adding documents: " ++ msg, none⟩)
    | some idx =>
      match e (docs.map Document.page_content) with
      | Except.ok vs =>
        (⟨s1.documents, some (idx ++ vs)⟩,
         ⟨true, "Successfully added " ++ toString docs.length ++ " documents",
          some docs.length⟩)
      | Except.error msg =>
        (s1, ⟨false, "Error adding documents: " ++ msg, none⟩)

/-- `VectorStore.clear_all` of `vector_store_deploy.py` (lines 130-143):
resets both the documents list and the index. -/
def clearAll (_s : DeployState) : DeployState × AddDocsResult :=
  (emptyDeployState, ⟨true, "All documents cleared", none⟩)

/-- One mutating operation on the deploy store. -/
inductive Op where
  | add (docs : List Document)
  | clear
deriving DecidableEq, Repr

/-- Run one operation, accumulating whether every operation so far
succeeded. -/
def stepOp (e : List String → Except String (List Vec))
    (acc : DeployState × Bool) (op : Op) : DeployState × Bool :=
  match op with
  | Op.add docs =>
    let r := addDocuments e acc.1 docs
    (r.1, acc.2 && r.2.success)
  | Op.clear =>
    let r := clearAll acc.1
    (r.1, acc.2 && r.2.success)

/-- Run a sequence of operations from the fresh store. -/
def runOps (e : List String → Except String (List Vec))
    (ops : List Op) : DeployState × Bool :=
  ops.foldl (stepOp e) (emptyDeployState, true)

/-- A value appearing in one of the stats dictionaries. -/
inductive StatValue where
  | nat (n : Nat)
  | str (s : String)
  | strList (l : List String)
deriving DecidableEq, Repr

/-- The distinct `source` metadata values among the stored documents, as
collected by `get_stats` of `vector_store_deploy.py` (a Python `set`). -/
def distinctSources (docs : List Document) : List String :=
  (docs.filterMap Document.source).dedup

/-- `VectorStore.get_stats` of `vector_store_deploy.py` (lines 105-128): the
returned dictionary, keyed exactly as in the source.  `total_documents` is
the number of distinct source files, `total_chunks` the number of stored
documents. -/
def getStats (docs : List Document) : List (String × StatValue) :=
  [("total_documents", StatValue.nat (distinctSources docs).length),
   ("total_chunks", StatValue.nat docs.length),
   ("source_files", StatValue.strList (distinctSources docs))]

/-- `VectorStore.get_collection_stats` of `vector_store.py` (lines 85-91):
the returned dictionary, keyed exactly as in the source; `count` is
`collection.count()`, the number of stored chunks. -/
def getCollectionStats (count : Nat) : List (String × StatValue) :=
  [("total_documents", StatValue.nat count),
   ("collection_name", StatValue.str COLLECTION_NAME)]

/-- Dot product of two vectors (truncating at the shorter one). -/
def dot : Vec → Vec → ℚ
  | [], _ => 0
  | _ :: _, [] => 0
  | a :: as, b :: bs => a * b + dot as bs

/-- Ranking relation of the specified search: higher score first, ties by
ascending id. -/
def searchRank (a b : Nat × ℚ) : Prop :=
  b.2 < a.2 ∨ (a.2 = b.2 ∧ a.1 ≤ b.1)

instance : DecidableRel searchRank := fun a b => by
  unfold searchRank; infer_instance

instance : IsTotal (Nat × ℚ) searchRank where
  total a b := by
    unfold searchRank
    rcases lt_trichotomy a.2 b.2 with h | h | h
    · exact Or.inr (Or.inl h)
    · rcases Nat.le_total a.1 b.1 with h1 | h1
      · exact Or.inl (Or.inr ⟨h, h1⟩)
      · exact Or.inr (Or.inr ⟨h.symm, h1⟩)
    · exact Or.inl (Or.inl h)

instance : IsTrans (Nat × ℚ) searchRank where
  trans a b c hab hbc := by
    unfold searchRank at *
    rcases hab with h1 | ⟨h1, h1'⟩
    · rcases hbc with h2 | ⟨h2, _⟩
      · exact Or.inl (h2.trans h1)
      · exact Or.inl (h2 ▸ h1)
    · rcases hbc with h2 | ⟨h2, h2'⟩
      · exact Or.inl (h1 ▸ h2)
      · exact Or.inr ⟨h1.trans h2, h1'.trans h2'⟩

/-- Modelled from the spec: the nearest-neighbour search of the Index
(`search(query, k)`, spec §4.3).  In the source this step is performed by the
external Chroma/FAISS libraries (`collection.query` in `vector_store.py`,
`FAISS.similarity_search` in `vector_store_deploy.py`), so it is not
repository code; the spec prescribes exact brute-force ranking by descending
cosine similarity (dot product on the normalized vectors), ties broken by
ascending id, returning up to `k` entries. -/
def searchIndex (entries : List (Nat × Vec)) (q : Vec) (k : Nat) :
    List (Nat × ℚ) :=
  (List.insertionSort searchRank
    (entries.map fun p => (p.1, dot q p.2))).take k

/-- `VectorStore.similarity_search` of `vector_store_deploy.py`
(lines 94-103), parameterised by the external FAISS search `f`: when the
index has never been created (`self.vectorstore is None`, the empty
collection) it returns `[]` without consulting `f`. -/
def similaritySearchDeploy (f : List Vec → String → Nat → List Document)
    (s : DeployState) (q : String) (k : Nat) : List Document :=
  match s.vectorstore with
  | none => []
  | some idx => f idx q k

/-- `RAGChatbot.get_relevant_context` of `rag_chatbot.py` (lines 60-72),
applied to the texts of the retrieval results: the caller-side rendering
that turns an empty result list into the fallback string and otherwise
joins the retrieved texts. -/
def getRelevantContext (results : List String) : String :=
  if results.isEmpty then "No relevant context found."
  else String.intercalate "\n\n" results

/-- Modelled from the spec: `embed_documents` of the external HuggingFace
model applied to one batch; the spec (and claim C6) treat the model as an
opaque pure function of a single text, so a batch call is the element-wise
application of that function. -/
def embedDocuments (model : String → Vec) (batch : List String) : List Vec :=
  batch.map model

/-- `DocumentProcessor.get_embeddings` of `document_processor.py`
(lines 45-56): walks the input in batches of 32 and concatenates the batch
results, faithful to the `range(0, len(texts), batch_size)` loop. -/
def getEmbeddings (model : String → Vec) (texts : List String) : List Vec :=
  match texts with
  | [] => []
  | t :: ts =>
    embedDocuments model ((t :: ts).take 32) ++
      getEmbeddings model ((t :: ts).drop 32)
termination_by texts.length
decreasing_by simp [List.length_drop]; omega

/-- Modelled from the spec: `embed_one`, the single-item query-time form
(`embed_query` of the external model in the source), the same opaque
per-text function. -/
def embedOne (model : String → Vec) (t : String) : Vec := model t

/-- The constructor keyword arguments of a `HuggingFaceEmbeddings` instance:
model name, device, and the `normalize_embeddings` encode flag (the
sentence-transformers default is `False` when the flag is not passed). -/
structure EmbedderConfig where
  model_name : String
  device : String
  normalize_embeddings : Bool
deriving DecidableEq, Repr

/-- The embedder built in `DocumentProcessor.__init__`
(`document_processor.py` lines 12-23): passes
`encode_kwargs={'normalize_embeddings': True}`. -/
def documentProcessorEmbedder : EmbedderConfig :=
  ⟨"sentence-transformers/all-MiniLM-L6-v2", "cpu", true⟩

/-- The embedder built in `VectorStore.__init__` of `vector_store.py`
(lines 12-16): no `encode_kwargs`, so `normalize_embeddings` keeps the
library default `False`. -/
def chromaVectorStoreEmbedder : EmbedderConfig :=
  ⟨"sentence-transformers/all-MiniLM-L6-v2", "cpu", false⟩

/-- The embedder built in `VectorStore.__init__` of `vector_store_deploy.py`
(lines 13-21): no `encode_kwargs`, so `normalize_embeddings` keeps the
library default `False`. -/
def deployVectorStoreEmbedder : EmbedderConfig :=
  ⟨"sentence-transformers/all-MiniLM-L6-v2", "cpu", false⟩

/-- Squared Euclidean norm of a vector; a unit vector has `sqNorm v = 1`. -/
def sqNorm (v : Vec) : ℚ :=
  (v.map fun x => x * x).sum

/-- Modelled from the spec: the encode step of the external
sentence-transformers model under a given configuration.  `m` is the raw
model (opaque per-text function) and `nrm` the library's L2-normalization;
the library applies `nrm` exactly when `normalize_embeddings` is set, and
returns the raw model output unchanged otherwise. -/
def encodeWith (cfg : EmbedderConfig) (nrm : Vec → Vec) (m : String → Vec)
    (t : String) : Vec :=
  if cfg.normalize_embeddings then nrm (m t) else m t

/-- Modelled from the spec: the Chunker contract (§4.1), which in the source
is the external langchain `RecursiveCharacterTextSplitter` configured in
`document_processor.py` lines 19-23 with `config.py`'s sizes.  The spec
prescribes consecutive windows of up to `C` characters, each window after
the first beginning `step = C - O` positions after the previous window's
start; empty input yields an empty sequence (and a zero step, excluded by
the `overlap < chunk_size` validity condition, is guarded to the empty
result). -/
def chunkText (C step : Nat) (l : List Char) : List (List Char) :=
  if l.isEmpty || step == 0 then []
  else l.take C :: chunkText C step (l.drop step)
termination_by l.length
decreasing_by
  rename_i h
  simp only [Bool.or_eq_true, List.isEmpty_iff, beq_iff_eq] at h
  push_neg at h
  have hl : 0 < l.length := List.length_pos.mpr h.1
  have hs : 0 < step := Nat.pos_of_ne_zero h.2
  simp [List.length_drop]; omega

/-- The result dictionary of the `RAGChatbot` coordinator methods in
`rag_chatbot.py`: a `success` flag and a `message`. -/
structure OpResult where
  success : Bool
  message : String
deriving DecidableEq, Repr

/-- The result dictionary of `RAGChatbot.chat`. -/
structure ChatResult where
  success : Bool
  response : String
  context : String
  query : String
deriving DecidableEq, Repr

/-- Whether an `Except` computation (a Python call that may raise)
succeeded. -/
def exOk {α : Type} : Except String α → Bool
  | Except.ok _ => true
  | Except.error _ => false

/-- The arity check opening `VectorStore.add_documents` of
`vector_store.py` (lines 40-51): raises `ValueError` when the lengths
differ, otherwise hands the texts to `collection.add` (external). -/
def addDocumentsChroma (texts : List String) (metadata : List (Option String)) :
    Except String Unit :=
  if texts.length ≠ metadata.length then
    Except.error "Number of texts must match number of metadata entries"
  else Except.ok ()

/-- `RAGChatbot.add_document` of `rag_chatbot.py` (lines 36-58):
`process_document` (which may raise, e.g. `FileNotFoundError` for a missing
path, `ValueError` for an unsupported extension, or an embedding failure)
followed by `add_documents` (which may raise), the whole body wrapped in
`try/except` returning a `success` dictionary. -/
def addDocument (filePath : String)
    (processed : Except String (List String × List (Option String)))
    (store : List String → List (Option String) → Except String Unit) :
    OpResult :=
  match processed with
  | Except.error e => ⟨false, "Error adding document: " ++ e⟩
  | Except.ok (texts, metadata) =>
    match store texts metadata with
    | Except.error e => ⟨false, "Error adding document: " ++ e⟩
    | Except.ok _ =>
      ⟨true, "Successfully added document: " ++ filePath⟩

/-- `RAGChatbot.generate_response` of `rag_chatbot.py` (lines 74-91): the
LLM call is wrapped in its own `try/except` that turns an exception into
the string `"Error generating response: ..."` returned as a normal value. -/
def generateResponse (llm : Except String String) : String :=
  match llm with
  | Except.ok r => r
  | Except.error e => "Error generating response: " ++ e

/-- `RAGChatbot.chat` of `rag_chatbot.py` (lines 93-115): retrieval (which
may raise, modelled by `retrieval`) then generation; the body is wrapped in
`try/except` returning `success: False` only when an exception escapes —
and `generate_response` never lets one escape. -/
def chat (query : String) (retrieval : Except String (List String))
    (llm : Except String String) : ChatResult :=
  match retrieval with
  | Except.error e => ⟨false, "Error in chat: " ++ e, "", query⟩
  | Except.ok results =>
    ⟨true, generateResponse llm, getRelevantContext results, query⟩

/-- `RAGChatbot.clear_knowledge_base` of `rag_chatbot.py` (lines 121-133):
`clear_collection` (which may raise) wrapped in `try/except`. -/
def clearKnowledgeBase (clearOp : Except String Unit) : OpResult :=
  match clearOp with
  | Except.ok _ => ⟨true, "Knowledge base cleared successfully"⟩
  | Except.error e => ⟨false, "Error clearing knowledge base: " ++ e⟩

/-- Helper: `getEmbeddings` applies the per-text model to every input in
order; the batch-of-32 walk is a reassociation of the same element-wise
map. -/
theorem getEmbeddings_eq_map (m : String → Vec) (ts : List String) :
    getEmbeddings m ts = ts.map m := by
  have H : ∀ n (l : List String), l.length ≤ n → getEmbeddings m l = l.map m := by
    intro n
    induction n with
    | zero =>
      intro l h
      have : l = [] := List.eq_nil_of_length_eq_zero (Nat.le_zero.mp h)
      subst this
      simp [getEmbeddings]
    | succ n ih =>
      intro l h
      match l with
      | [] => simp [getEmbeddings]
      | t :: l' =>
        rw [getEmbeddings]
        rw [ih ((t :: l').drop 32) (by
          simp only [List.length_drop, List.length_cons] at h ⊢
          omega)]
        rw [embedDocuments, ← List.map_append, List.take_append_drop]
  exact H ts.length ts le_rfl

/-- C1: `add_documents` in `vector_store.py` assigns ids from
`range(len(texts))` of the current call only, so a second call reuses the
ids of the first instead of continuing past them: with one text per call,
both calls hand the id `doc_0` to the collection. -/
theorem c1_id_reuse :
    addDocumentsIds ["first document"] = ["doc_0"] ∧
    addDocumentsIds ["second document"] = ["doc_0"] := by
  constructor <;> rfl

/-- C2: in `vector_store_deploy.py`, `add_documents` extends
`self.documents` before the embedding/index step; when embedding fails on a
fresh store, the call reports failure yet the document store now contains
the new document — the failed ingestion is not atomic. -/
theorem c2_failed_ingest_mutates :
    (addDocuments (fun _ => Except.error "embedding model unavailable")
        emptyDeployState [⟨"hello world", some "notes.txt"⟩]).2.success = false ∧
    (addDocuments (fun _ => Except.error "embedding model unavailable")
        emptyDeployState [⟨"hello world", some "notes.txt"⟩]).1.documents =
      [⟨"hello world", some "notes.txt"⟩] ∧
    (addDocuments (fun _ => Except.error "embedding model unavailable")
        emptyDeployState [⟨"hello world", some "notes.txt"⟩]).1.vectorstore =
      none := by
  refine ⟨rfl, rfl, rfl⟩

/-- C5: querying with an empty index (`self.vectorstore is None`) returns
the empty sequence without consulting the search backend and without error;
the "no relevant context" fallback string is produced by the caller
(`get_relevant_context`), not by the retrieval component. -/
theorem c5_empty_index_search (f : List Vec → String → Nat → List Document)
    (s : DeployState) (q : String) (k : Nat) (h : s.vectorstore = none) :
    similaritySearchDeploy f s q k = [] ∧
    getRelevantContext
      ((similaritySearchDeploy f s q k).map Document.page_content) =
      "No relevant context found." := by
  have h1 : similaritySearchDeploy f s q k = [] := by
    simp [similaritySearchDeploy, h]
  exact ⟨h1, by rw [h1]; rfl⟩

/-- Witness for `c5_empty_index_search` at the fresh store. -/
theorem c5_empty_index_search_witness :
    similaritySearchDeploy (fun _ _ _ => []) emptyDeployState "any query" 5 = [] ∧
    getRelevantContext
      ((similaritySearchDeploy (fun _ _ _ => []) emptyDeployState "any query" 5).map
        Document.page_content) =
      "No relevant context found." :=
  c5_empty_index_search (fun _ _ _ => []) emptyDeployState "any query" 5 rfl

/-- C6: `get_embeddings` produces one vector per input text in input order
(it equals the element-wise application of the opaque per-text model), the
batch-of-32 loop is batch-invariant (`embed(A ++ B) = embed A ++ embed B`),
and the singleton batch agrees with the single-item form `embed_one`. -/
theorem c6_embedding_batch_invariance (m : String → Vec) (A B : List String)
    (t : String) :
    getEmbeddings m (A ++ B) = getEmbeddings m A ++ getEmbeddings m B ∧
    getEmbeddings m A = A.map m ∧
    (getEmbeddings m A).length = A.length ∧
    getEmbeddings m [t] = [embedOne m t] := by
  refine ⟨?_, getEmbeddings_eq_map m A, ?_, ?_⟩ <;>
    simp [getEmbeddings_eq_map, embedOne]

/-- C9 counterexample: neither stats function returns a field named
`total_sources`, and the Chroma variant does not return `total_chunks`
either — `get_collection_stats` reports only `total_documents` (the chunk
count) and `collection_name`. -/
theorem c9_counterexample :
    "total_sources" ∉ (getStats [⟨"chunk", some "a.txt"⟩]).map Prod.fst ∧
    "total_chunks" ∉ (getCollectionStats 1).map Prod.fst ∧
    "total_sources" ∉ (getCollectionStats 1).map Prod.fst := by
  refine ⟨?_, ?_, ?_⟩ <;> decide

/-- C9 amended: `get_collection_stats` (Chroma variant) reports the chunk
count under `total_documents` next to `collection_name` only; `get_stats`
(deploy variant) reports the chunk count under `total_chunks` and the
distinct-source count under `total_documents` (with the source list under
`source_files`); no variant exposes a `total_sources` field. -/
theorem c9_stats_fields (count : Nat) (docs : List Document) :
    ("total_documents", StatValue.nat count) ∈ getCollectionStats count ∧
    (getCollectionStats count).map Prod.fst =
      ["total_documents", "collection_name"] ∧
    ("total_chunks", StatValue.nat docs.length) ∈ getStats docs ∧
    ("total_documents", StatValue.nat (distinctSources docs).length) ∈
      getStats docs ∧
    "total_sources" ∉ (getStats docs).map Prod.fst := by
  refine ⟨by simp [getCollectionStats], by simp [getCollectionStats],
    by simp [getStats], by simp [getStats], ?_⟩
  simp [getStats]

/-- C10 counterexample: a generation failure does not surface as
`success: False` — `generate_response` swallows the exception and `chat`
returns `success: True` with the error text embedded in the response. -/
theorem c10_counterexample :
    (chat "what is RAG" (Except.ok []) (Except.error "rate limited")).success =
      true ∧
    (chat "what is RAG" (Except.ok []) (Except.error "rate limited")).response =
      "Error generating response: rate limited" := by
  exact ⟨rfl, rfl⟩

/-- C10 amended: the coordinator methods are total (no exception
propagates); `add_document` reports `success: False` exactly when
processing or storing fails, and `clear_knowledge_base` exactly when the
clear fails, but `chat` reports `success: False` only when retrieval
fails — a generation failure is absorbed by `generate_response` and `chat`
still reports `success: True`. -/
theorem c10_no_propagation (fp q : String)
    (processed : Except String (List String × List (Option String)))
    (store : List String → List (Option String) → Except String Unit)
    (retrieval : Except String (List String))
    (llm : Except String String)
    (clearOp : Except String Unit) :
    (addDocument fp processed store).success =
      (match processed with
       | Except.ok (ts, md) => exOk (store ts md)
       | Except.error _ => false) ∧
    (chat q retrieval llm).success = exOk retrieval ∧
    (clearKnowledgeBase clearOp).success = exOk clearOp := by
  refine ⟨?_, ?_, ?_⟩
  · cases processed with
    | error e => rfl
    | ok p =>
      rcases p with ⟨ts, md⟩
      cases hstore : store ts md <;> simp [addDocument, exOk, hstore]
  · cases retrieval <;> rfl
  · cases clearOp <;> rfl

/-- Helper: once an operation has failed, the accumulated success flag stays
false through any further operations. -/
theorem stepOp_snd_false (e : List String → Except String (List Vec))
    (op : Op) (p : DeployState × Bool) (hp : p.2 = false) :
    (stepOp e p op).2 = false := by
  cases op <;> simp [stepOp, hp]

/-- Helper: folding further operations from a failed prefix keeps the
success flag false. -/
theorem foldl_stepOp_false (e : List String → Except String (List Vec)) :
    ∀ (ops : List Op) (p : DeployState × Bool), p.2 = false →
      (List.foldl (stepOp e) p ops).2 = false := by
  intro ops
  induction ops with
  | nil => intro p hp; simpa using hp
  | cons op ops ih =>
    intro p hp
    rw [List.foldl_cons]
    exact ih _ (stepOp_snd_false e op p hp)

/-- Helper: a successful operation preserves the index/store alignment,
provided the external embedding step returns one vector per text. -/
theorem stepOp_preserves (e : List String → Except String (List Vec))
    (he : ∀ ts vs, e ts = Except.ok vs → vs.length = ts.length)
    (s : DeployState) (op : Op)
    (hs : indexSize s.vectorstore = s.documents.length)
    (hsucc : (stepOp e (s, true) op).2 = true) :
    indexSize (stepOp e (s, true) op).1.vectorstore =
      (stepOp e (s, true) op).1.documents.length := by
  cases op with
  | clear => simp [stepOp, clearAll, emptyDeployState, indexSize]
  | add docs =>
    by_cases hd : docs.isEmpty
    · simp [stepOp, addDocuments, hd] at hsucc
    · cases hv : s.vectorstore with
      | none =>
        cases hev : e (s.documents.map Document.page_content ++
            docs.map Document.page_content) with
        | ok vs =>
          have hlen := he _ _ hev
          simp only [List.length_append, List.length_map] at hlen
          simp [stepOp, addDocuments, hd, hv, hev, indexSize, hlen]
        | error msg =>
          simp [stepOp, addDocuments, hd, hv, hev] at hsucc
      | some idx =>
        cases hev : e (docs.map Document.page_content) with
        | ok vs =>
          have hlen := he _ _ hev
          have hidx : idx.length = s.documents.length := by
            simpa [indexSize, hv] using hs
          simp [stepOp, addDocuments, hd, hv, hev, indexSize, hlen, hidx]
        | error msg =>
          simp [stepOp, addDocuments, hd, hv, hev] at hsucc

/-- Helper: over any operation sequence whose operations all succeeded, the
alignment invariant is carried from the starting state to the final one. -/
theorem foldl_stepOp_aligned (e : List String → Except String (List Vec))
    (he : ∀ ts vs, e ts = Except.ok vs → vs.length = ts.length) :
    ∀ (ops : List Op) (p : DeployState × Bool),
      indexSize p.1.vectorstore = p.1.documents.length →
      (List.foldl (stepOp e) p ops).2 = true →
      indexSize (List.foldl (stepOp e) p ops).1.vectorstore =
        (List.foldl (stepOp e) p ops).1.documents.length := by
  intro ops
  induction ops with
  | nil => intro p hp _; simpa using hp
  | cons op ops ih =>
    intro p hp hok
    rcases p with ⟨s, b⟩
    cases b with
    | false =>
      have := foldl_stepOp_false e (op :: ops) (s, false) rfl
      rw [this] at hok
      cases hok
    | true =>
      rw [List.foldl_cons] at hok ⊢
      cases hstep : (stepOp e (s, true) op).2 with
      | false =>
        have hpair : stepOp e (s, true) op =
            ((stepOp e (s, true) op).1, false) := by
          rw [← hstep]
        rw [hpair] at hok
        have := foldl_stepOp_false e ops ((stepOp e (s, true) op).1, false) rfl
        rw [this] at hok
        cases hok
      | true =>
        exact ih _ (stepOp_preserves e he s op hp hstep) hok

/-- C3: after any sequence of successful `add_documents`/`clear_all` calls
on the deploy store, the index holds exactly as many vectors as the
document store holds chunks, and `get_stats` reports that same number as
`total_chunks`. -/
theorem c3_alignment_invariant (e : List String → Except String (List Vec))
    (ops : List Op)
    (he : ∀ ts vs, e ts = Except.ok vs → vs.length = ts.length)
    (hok : (runOps e ops).2 = true) :
    indexSize (runOps e ops).1.vectorstore =
      (runOps e ops).1.documents.length ∧
    ("total_chunks",
      StatValue.nat (indexSize (runOps e ops).1.vectorstore)) ∈
        getStats (runOps e ops).1.documents := by
  have h := foldl_stepOp_aligned e he ops (emptyDeployState, true)
    (by simp [emptyDeployState, indexSize]) hok
  refine ⟨h, ?_⟩
  rw [show indexSize (runOps e ops).1.vectorstore =
    (runOps e ops).1.documents.length from h]
  simp [getStats]

/-- Witness for `c3_alignment_invariant`: a concrete embedder and the
sequence add, clear, add, add. -/
theorem c3_alignment_invariant_witness :
    indexSize (runOps (fun ts => Except.ok (ts.map fun _ => ([] : Vec)))
      [Op.add [⟨"a", some "s.txt"⟩], Op.clear,
       Op.add [⟨"b", none⟩], Op.add [⟨"c", some "t.txt"⟩, ⟨"d", some "t.txt"⟩]]).1.vectorstore =
      (runOps (fun ts => Except.ok (ts.map fun _ => ([] : Vec)))
        [Op.add [⟨"a", some "s.txt"⟩], Op.clear,
         Op.add [⟨"b", none⟩], Op.add [⟨"c", some "t.txt"⟩, ⟨"d", some "t.txt"⟩]]).1.documents.length ∧
    ("total_chunks",
      StatValue.nat (indexSize (runOps (fun ts => Except.ok (ts.map fun _ => ([] : Vec)))
        [Op.add [⟨"a", some "s.txt"⟩], Op.clear,
         Op.add [⟨"b", none⟩], Op.add [⟨"c", some "t.txt"⟩, ⟨"d", some "t.txt"⟩]]).1.vectorstore)) ∈
      getStats (runOps (fun ts => Except.ok (ts.map fun _ => ([] : Vec)))
        [Op.add [⟨"a", some "s.txt"⟩], Op.clear,
         Op.add [⟨"b", none⟩], Op.add [⟨"c", some "t.txt"⟩, ⟨"d", some "t.txt"⟩]]).1.documents :=
  c3_alignment_invariant (fun ts => Except.ok (ts.map fun _ => ([] : Vec)))
    [Op.add [⟨"a", some "s.txt"⟩], Op.clear,
     Op.add [⟨"b", none⟩], Op.add [⟨"c", some "t.txt"⟩, ⟨"d", some "t.txt"⟩]]
    (by
      intro ts vs hv
      simp only [Except.ok.injEq] at hv
      subst hv
      simp)
    (by rfl)

/-- Helper: two pairwise properties of the same list combine pointwise. -/
theorem pairwise_and {α : Type} {R S : α → α → Prop} :
    ∀ {l : List α}, l.Pairwise R → l.Pairwise S →
      l.Pairwise fun a b => R a b ∧ S a b := by
  intro l
  induction l with
  | nil => intro _ _; exact List.Pairwise.nil
  | cons a l ih =>
    intro hR hS
    rw [List.pairwise_cons] at hR hS ⊢
    exact ⟨fun b hb => ⟨hR.1 b hb, hS.1 b hb⟩, ih hR.2 hS.2⟩

/-- C4: the modelled search returns its results sorted by non-increasing
score with equal-score entries in strictly ascending id order (given the
stored ids are distinct), returns `min k size` entries, and when `k` is at
least the index size it returns all scored entries (as a permutation of
them), never an error. -/
theorem c4_search_ranking (entries : List (Nat × Vec)) (q : Vec) (k : Nat)
    (hids : (entries.map Prod.fst).Nodup) :
    (searchIndex entries q k).Pairwise
      (fun a b => b.2 ≤ a.2 ∧ (a.2 = b.2 → a.1 < b.1)) ∧
    (searchIndex entries q k).length = min k entries.length ∧
    (entries.length ≤ k →
      List.Perm (searchIndex entries q k)
        (entries.map fun p => (p.1, dot q p.2))) := by
  have hperm : List.Perm
      (List.insertionSort searchRank (entries.map fun p => (p.1, dot q p.2)))
      (entries.map fun p => (p.1, dot q p.2)) :=
    List.perm_insertionSort _ _
  have hsort : (List.insertionSort searchRank
      (entries.map fun p => (p.1, dot q p.2))).Sorted searchRank :=
    List.sorted_insertionSort _ _
  have hscored_ids :
      ((entries.map fun p => (p.1, dot q p.2)).map Prod.fst).Nodup := by
    simpa [List.map_map, Function.comp] using hids
  have hsorted_ids :
      ((List.insertionSort searchRank
        (entries.map fun p => (p.1, dot q p.2))).map Prod.fst).Nodup :=
    ((hperm.map Prod.fst).nodup_iff).mpr hscored_ids
  have hne : (List.insertionSort searchRank
      (entries.map fun p => (p.1, dot q p.2))).Pairwise
      fun a b => a.1 ≠ b.1 := by
    exact List.pairwise_map.mp hsorted_ids
  have hcomb : (List.insertionSort searchRank
      (entries.map fun p => (p.1, dot q p.2))).Pairwise
      (fun a b => b.2 ≤ a.2 ∧ (a.2 = b.2 → a.1 < b.1)) := by
    refine (pairwise_and hsort hne).imp ?_
    rintro a b ⟨hr, hne1⟩
    rcases hr with h | ⟨h, h'⟩
    · exact ⟨le_of_lt h, fun heq => absurd (heq ▸ h) (lt_irrefl _)⟩
    · exact ⟨le_of_eq h.symm, fun _ => lt_of_le_of_ne h' hne1⟩
  refine ⟨?_, ?_, ?_⟩
  · exact hcomb.sublist (List.take_sublist k _)
  · simp [searchIndex, List.length_take, List.length_insertionSort]
  · intro hk
    have hlen : (List.insertionSort searchRank
        (entries.map fun p => (p.1, dot q p.2))).length ≤ k := by
      simpa [List.length_insertionSort] using hk
    rw [searchIndex, List.take_of_length_le hlen]
    exact hperm

/-- Witness for `c4_search_ranking` on a concrete three-vector index. -/
theorem c4_search_ranking_witness :
    (searchIndex [(0, [1, 0]), (1, [0, 1]), (2, [1, 0])] [1, 0] 5).Pairwise
      (fun a b => b.2 ≤ a.2 ∧ (a.2 = b.2 → a.1 < b.1)) ∧
    (searchIndex [(0, [1, 0]), (1, [0, 1]), (2, [1, 0])] [1, 0] 5).length =
      min 5 ([(0, [1, 0]), (1, [0, 1]), (2, [1, 0])] : List (Nat × Vec)).length ∧
    (([(0, [1, 0]), (1, [0, 1]), (2, [1, 0])] : List (Nat × Vec)).length ≤ 5 →
      List.Perm (searchIndex [(0, [1, 0]), (1, [0, 1]), (2, [1, 0])] [1, 0] 5)
        (([(0, [1, 0]), (1, [0, 1]), (2, [1, 0])] : List (Nat × Vec)).map
          fun p => (p.1, dot [1, 0] p.2))) :=
  c4_search_ranking [(0, [1, 0]), (1, [0, 1]), (2, [1, 0])] [1, 0] 5 (by decide)

/-- C7 counterexample: the `VectorStore` embedder of `vector_store.py` is
constructed without `normalize_embeddings`, so the encode step passes the
raw model vector through unchanged; an admissible raw model output of
squared norm 4 stays of squared norm 4, not unit length. -/
theorem c7_counterexample :
    sqNorm (encodeWith chromaVectorStoreEmbedder (fun v => v)
      (fun _ => [2, 0]) "what is RAG") ≠ 1 := by
  norm_num [sqNorm, encodeWith, chromaVectorStoreEmbedder]

/-- C7 amended: only the ingestion-side embedder of `document_processor.py`
enables `normalize_embeddings`, so every vector the `get_embeddings`
pipeline produces under it is unit length (given the library normalizer
returns unit vectors); the embedders of `vector_store.py` and
`vector_store_deploy.py` omit the flag and return the raw model vectors
unchanged, so their outputs are not guaranteed unit length. -/
theorem c7_normalization (nrm : Vec → Vec) (m : String → Vec)
    (texts : List String) (t : String)
    (hnrm : ∀ v, sqNorm (nrm v) = 1) :
    (∀ v ∈ getEmbeddings (encodeWith documentProcessorEmbedder nrm m) texts,
      sqNorm v = 1) ∧
    encodeWith chromaVectorStoreEmbedder nrm m t = m t ∧
    encodeWith deployVectorStoreEmbedder nrm m t = m t := by
  refine ⟨?_, rfl, rfl⟩
  intro v hv
  rw [getEmbeddings_eq_map] at hv
  rcases List.mem_map.mp hv with ⟨x, _, rfl⟩
  simpa [encodeWith, documentProcessorEmbedder] using hnrm (m x)

/-- Witness for `c7_normalization` with a constant unit normalizer and a
raw model of squared norm 4. -/
theorem c7_normalization_witness :
    (∀ v ∈ getEmbeddings
        (encodeWith documentProcessorEmbedder (fun _ => [1]) (fun _ => [2, 0]))
        ["alpha", "beta"],
      sqNorm v = 1) ∧
    encodeWith chromaVectorStoreEmbedder (fun _ => [1]) (fun _ => [2, 0])
      "query" = [2, 0] ∧
    encodeWith deployVectorStoreEmbedder (fun _ => [1]) (fun _ => [2, 0])
      "query" = [2, 0] :=
  c7_normalization (fun _ => [1]) (fun _ => [2, 0]) ["alpha", "beta"] "query"
    (by intro v; show sqNorm [1] = 1; norm_num [sqNorm])

/-- Helper: with a positive step, the chunker produces exactly the windows
starting at the multiples of `step`, one window per `k` below
`ceil(len / step)`. -/
theorem chunkText_eq (C step : Nat) (hs : 0 < step) (l : List Char) :
    chunkText C step l =
      (List.range ((l.length + step - 1) / step)).map
        fun k => (l.drop (k * step)).take C := by
  have H : ∀ n (l : List Char), l.length ≤ n →
      chunkText C step l =
        (List.range ((l.length + step - 1) / step)).map
          fun k => (l.drop (k * step)).take C := by
    intro n
    induction n with
    | zero =>
      intro l h
      have hl : l = [] := List.eq_nil_of_length_eq_zero (Nat.le_zero.mp h)
      subst hl
      rw [chunkText]
      simp [Nat.div_eq_of_lt (show step - 1 < step by omega)]
    | succ n ih =>
      intro l h
      by_cases hl : l = []
      · subst hl
        rw [chunkText]
        simp [Nat.div_eq_of_lt (show step - 1 < step by omega)]
      · have hlen : 0 < l.length := List.length_pos.mpr hl
        rw [chunkText]
        have hc1 : l.isEmpty = false := by simp [List.isEmpty_iff, hl]
        have hc2 : (step == 0) = false := by simp; omega
        rw [hc1, hc2]
        simp only [Bool.or_self, Bool.false_eq_true, if_false]
        rw [ih (l.drop step) (by simp [List.length_drop]; omega)]
        simp only [List.length_drop]
        have hn1 : (l.length + step - 1) / step = (l.length - 1) / step + 1 := by
          have h1 : l.length + step - 1 = (l.length - 1) + step := by omega
          rw [h1, Nat.add_div_right _ hs]
        have hn2 : (l.length - step + step - 1) / step =
            (l.length - 1) / step := by
          rcases Nat.le_total l.length step with hle | hle
          · have e1 : l.length - step + step - 1 = step - 1 := by omega
            have e3 : (l.length - 1) / step = 0 :=
              Nat.div_eq_of_lt (by omega)
            rw [e1, Nat.div_eq_of_lt (by omega), e3]
          · have e1 : l.length - step + step - 1 = l.length - 1 := by omega
            rw [e1]
        rw [hn1, hn2, List.range_succ_eq_map]
        simp only [List.map_cons, List.map_map]
        congr 1
        · simp
        · refine List.map_congr_left ?_
          intro k _
          simp only [Function.comp_apply, List.drop_drop]
          congr 2
          rw [Nat.succ_mul]
          omega
  exact H l.length l le_rfl

/-- C8: for `0 ≤ overlap < chunk_size` the modelled chunker splits the text
into consecutive windows of at most `chunk_size` characters, window `k`
starting exactly `k * (chunk_size - overlap)` positions into the text (so
each window after the first begins `chunk_size - overlap` after the
previous window's start), and the number of chunks is exactly
`ceil(len / (chunk_size - overlap))`. -/
theorem c8_chunker (C O : Nat) (l : List Char) (hO : O < C) :
    chunkText C (C - O) l =
      (List.range ((l.length + (C - O) - 1) / (C - O))).map
        (fun k => (l.drop (k * (C - O))).take C) ∧
    (chunkText C (C - O) l).length = (l.length + (C - O) - 1) / (C - O) ∧
    ∀ c ∈ chunkText C (C - O) l, c.length ≤ C := by
  have hs : 0 < C - O := by omega
  have he := chunkText_eq C (C - O) hs l
  refine ⟨he, by rw [he]; simp, ?_⟩
  intro c hc
  rw [he] at hc
  rcases List.mem_map.mp hc with ⟨k, _, rfl⟩
  simp [List.length_take]

/-- Witness for `c8_chunker`: under the default configuration
(`chunk_size = 500`, `overlap = 50`) a 1200-character plaintext document
yields exactly 3 chunks, each of at most 500 characters. -/
theorem c8_chunker_witness :
    (chunkText CHUNK_SIZE (CHUNK_SIZE - CHUNK_OVERLAP)
      (List.replicate 1200 'a')).length = 3 ∧
    ∀ c ∈ chunkText CHUNK_SIZE (CHUNK_SIZE - CHUNK_OVERLAP)
      (List.replicate 1200 'a'), c.length ≤ CHUNK_SIZE := by
  have h := c8_chunker CHUNK_SIZE CHUNK_OVERLAP (List.replicate 1200 'a')
    (by norm_num [CHUNK_SIZE, CHUNK_OVERLAP])
  refine ⟨?_, h.2.2⟩
  rw [h.2.1]
  norm_num [CHUNK_SIZE, CHUNK_OVERLAP, List.length_replicate]
